import Mathlib

/-!  Shallow embedding of `import_groceries.py` (autotroph repository).

The Python script drives a `FoodChainImporter` that reads a JSON grocery
export and issues HTTP requests against a food-chain REST service.  The
embedding models the network as an oracle `Env : Nat → Outcome` giving the
outcome of the n-th HTTP attempt of the run, and threads an explicit `World`
holding the importer's caches together with the trace of issued requests.
Python exceptions that escape the importer (`ValueError` for an unsupported
HTTP method in `make_request`, `KeyError` for a missing item field in
`create_recipe_ingredient_relationships`) are modelled with `Except`.
Console logging and the two fixed sleeps (1 s retry backoff, 0.1 s
inter-recipe throttle) have no observable effect on the state or the trace
and are not modelled.
-/

/-- A parsed JSON object with string values, as an association list. -/
abbrev Dict := List (String × String)

/-- One HTTP request issued by the importer: method, path and optional JSON
body, as handed to `requests.Session` by `make_request`. -/
structure Request where
  method : String
  endpoint : String
  body : Option Dict
deriving DecidableEq, Repr

/-- Outcome of a single HTTP attempt: a transport-level exception
(`requests.exceptions.RequestException`) or an HTTP response carrying a
status code and an optional parsed JSON body (`none` models an empty
`response.content`). -/
inductive Outcome where
  | exn : Outcome
  | http (status : Nat) (content : Option Dict) : Outcome
deriving DecidableEq, Repr

/-- The network oracle: outcome of the n-th HTTP attempt of the run. -/
abbrev Env := Nat → Outcome

/-- State of a `FoodChainImporter` instance (`__init__`, import_groceries.py
lines 20-33) together with the trace of issued HTTP requests. -/
structure World where
  store_locations : Dict
  ingredients : Dict
  recipes : Dict
  processed_store_locations : List String
  processed_ingredients : List String
  processed_recipes : List String
  calls : List Request
deriving DecidableEq, Repr

/-- A fresh importer: all caches and processed sets empty, no calls issued. -/
def initialWorld : World :=
  { store_locations := [], ingredients := [], recipes := []
    processed_store_locations := [], processed_ingredients := []
    processed_recipes := [], calls := [] }

/-- Python `s.upper()`: uppercase every character. -/
def strUpper (s : String) : String := ⟨s.data.map Char.toUpper⟩

/-- Python `s.lower()`: lowercase every character. -/
def strLower (s : String) : String := ⟨s.data.map Char.toLower⟩

/-- Python `s.strip() == ""`: true iff every character is whitespace
(in particular true for the empty string). -/
def stripEmpty (s : String) : Bool := s.data.all Char.isWhitespace

/-- Python truthiness of an optional string: `None` and `""` are falsy. -/
def truthyO : Option String → Bool
  | none => false
  | some s => s != ""

/-- Python dict assignment `d[k] = v` on an association list. -/
def dictInsert : Dict → String → String → Dict
  | [], k, v => [(k, v)]
  | (k', v') :: rest, k, v =>
    if k' == k then (k, v) :: rest else (k', v') :: dictInsert rest k v

/-- Python `set.add` on a duplicate-free list. -/
def setAdd (s : List String) (x : String) : List String :=
  if x ∈ s then s else s ++ [x]

/-- Record one issued HTTP request in the trace. -/
def pushCall (w : World) (method endpoint : String) (body : Option Dict) : World :=
  { w with calls := w.calls ++ [⟨method, endpoint, body⟩] }

/-- Number of requests in a trace addressed to a given path. -/
def countE (calls : List Request) (e : String) : Nat :=
  (calls.filter (fun q => q.endpoint == e)).length

/-- Number of store-location creation requests issued so far. -/
def slPosts (w : World) : Nat :=
  countE w.calls "/api/v1/food-chain/store-locations"

/-- Number of ingredient creation requests issued so far. -/
def ingPosts (w : World) : Nat :=
  countE w.calls "/api/v1/food-chain/ingredients"

/-- The retry loop of `make_request` (lines 39-69), recursing on the number
of attempts still available (`for attempt in range(retries)` at attempt `a`
has `retries - a` attempts left, and `attempt < retries - 1` holds iff more
than one attempt is left).  At each attempt the request is issued (recorded
in the trace) and the oracle decides its outcome.  Status 200/201 returns
the parsed body (`{}` for an empty body), status 409 returns `None`
immediately, any other status or a transport exception sleeps one second and
retries while attempts remain, returning `None` after the last one. -/
def request_attempts (env : Env) (method endpoint : String) (data : Option Dict) :
    Nat → World → Option Dict × World
  | 0, w => (none, w)
  | remaining + 1, w =>
    let w' := pushCall w method endpoint data
    match env w.calls.length with
    | Outcome.http status content =>
      if status == 200 || status == 201 then
        (some (content.getD []), w')
      else if status == 409 then
        (none, w')
      else if 0 < remaining then
        request_attempts env method endpoint data remaining w'
      else
        (none, w')
    | Outcome.exn =>
      if 0 < remaining then
        request_attempts env method endpoint data remaining w'
      else
        (none, w')

/-- `FoodChainImporter.make_request` (lines 35-69).  Dispatches on the HTTP
method: GET sends no body, POST/PUT send `data`, and any other method raises
`ValueError` (uncaught, modelled as `Except.error`). -/
def make_request (env : Env) (method endpoint : String) (data : Option Dict)
    (retries : Nat) (w : World) : Except String (Option Dict × World) :=
  if strUpper method == "GET" then
    Except.ok (request_attempts env method endpoint none retries w)
  else if strUpper method == "POST" then
    Except.ok (request_attempts env method endpoint data retries w)
  else if strUpper method == "PUT" then
    Except.ok (request_attempts env method endpoint data retries w)
  else
    Except.error ("Unsupported HTTP method: " ++ method)

/-- The fixed category-to-display-name table (lines 82-92). -/
def location_mapping : Dict :=
  [("Produce", "Produce Section"), ("Meat", "Meat Department"),
   ("Dairy", "Dairy Section"), ("Cheese", "Cheese Counter"),
   ("Middle", "Center Aisles"), ("Bakery", "Bakery Department"),
   ("Deli", "Deli Counter"), ("Frozen Food", "Frozen Foods"),
   ("", "General Store")]

/-- The body of `create_store_location` past the processed-set check
(lines 81-116): normalize an empty/whitespace-only category to `""`, map it
to a display name, issue the creation request, and on a response containing
an `id` record it in the cache (under the normalized key) and mark the
category processed. -/
def create_store_location_fresh (env : Env) (category_name : String) (w : World) :
    Except String (Option String × World) :=
  let category_name :=
    if category_name = "" ∨ stripEmpty category_name = true then "" else category_name
  let location_name := (List.lookup category_name location_mapping).getD category_name
  let store_location_data : Dict :=
    [("name", location_name),
     ("description", "Store location for " ++ strLower category_name ++ " items")]
  match make_request env "POST" "/api/v1/food-chain/store-locations"
      (some store_location_data) 3 w with
  | Except.error e => Except.error e
  | Except.ok (result, w) =>
    match result with
    | some r =>
      match List.lookup "id" r with
      | some location_id =>
        Except.ok (some location_id,
          { w with
              store_locations := dictInsert w.store_locations category_name location_id,
              processed_store_locations :=
                setAdd w.processed_store_locations category_name })
      | none => Except.ok (none, w)
    | none => Except.ok (none, w)

/-- `FoodChainImporter.create_store_location` (lines 71-116).  If the raw
category is marked processed and its cached identifier is truthy, return it
with no network call; otherwise (including the defensive branch where the
mark is present but the identifier is missing or empty, which logs a warning
and falls through) continue into the creation path. -/
def create_store_location (env : Env) (category_name : String) (w : World) :
    Except String (Option String × World) :=
  if category_name ∈ w.processed_store_locations ∧
      truthyO (List.lookup category_name w.store_locations) = true then
    Except.ok (List.lookup category_name w.store_locations, w)
  else
    create_store_location_fresh env category_name w

/-- `create_ingredient_store_relationship` (lines 155-163): a single POST to
the link path; the result is only logged. -/
def create_ingredient_store_relationship (env : Env)
    (ingredient_id store_location_id : String) (w : World) : Except String World :=
  let endpoint := "/api/v1/food-chain/ingredients/" ++ ingredient_id ++
    "/store-locations/" ++ store_location_id
  match make_request env "POST" endpoint none 3 w with
  | Except.error e => Except.error e
  | Except.ok (_result, w) => Except.ok w

/-- `FoodChainImporter.create_ingredient` (lines 118-153).  Cache-hit path as
in `create_store_location`; otherwise resolve the store location first and
fail without a network call when that yields a falsy identifier; otherwise
issue the creation request and, on a response containing an `id`, cache it,
mark the item processed and create the ingredient-to-store-location link. -/
def create_ingredient (env : Env) (item_name category : String) (w : World) :
    Except String (Option String × World) :=
  if item_name ∈ w.processed_ingredients ∧
      truthyO (List.lookup item_name w.ingredients) = true then
    Except.ok (List.lookup item_name w.ingredients, w)
  else
    match create_store_location env category w with
    | Except.error e => Except.error e
    | Except.ok (store_location_id, w) =>
      match store_location_id with
      | none => Except.ok (none, w)
      | some sid =>
        if sid = "" then Except.ok (none, w)
        else
          let ingredient_data : Dict :=
            [("name", item_name), ("purchaseFrequency", "Usually")]
          match make_request env "POST" "/api/v1/food-chain/ingredients"
              (some ingredient_data) 3 w with
          | Except.error e => Except.error e
          | Except.ok (result, w) =>
            match result with
            | some r =>
              match List.lookup "id" r with
              | some ingredient_id =>
                let w :=
                  { w with
                      ingredients := dictInsert w.ingredients item_name ingredient_id,
                      processed_ingredients :=
                        setAdd w.processed_ingredients item_name }
                match create_ingredient_store_relationship env ingredient_id sid w with
                | Except.error e => Except.error e
                | Except.ok w => Except.ok (some ingredient_id, w)
              | none => Except.ok (none, w)
            | none => Except.ok (none, w)

/-- An item record of the input JSON.  `item['name']` / `item['category']`
raise `KeyError` when the key is absent, so absence is modelled with
`Option`. -/
structure ItemRec where
  name : Option String
  category : Option String
deriving DecidableEq, Repr

/-- A recipe record of the input JSON.  The orchestrator reads both fields
with `recipe.get(..., default)`, so absence is modelled with `Option`. -/
structure RecipeRec where
  name : Option String
  items : Option (List ItemRec)
deriving DecidableEq, Repr

/-- The parsed input document; `data.get('recipes', [])` tolerates a missing
`recipes` key. -/
structure InputFile where
  recipes : Option (List RecipeRec)
deriving DecidableEq, Repr

/-- `create_recipe_ingredient_relationships` (lines 197-212): for each item
in order, read `item['name']` and `item['category']` (raising `KeyError`
when absent), resolve the ingredient, and on a truthy identifier issue the
recipe-to-ingredient link request. -/
def create_recipe_ingredient_relationships (env : Env) (recipe_id : String) :
    List ItemRec → World → Except String World
  | [], w => Except.ok w
  | item :: rest, w =>
    match item.name with
    | none => Except.error "KeyError: 'name'"
    | some item_name =>
      match item.category with
      | none => Except.error "KeyError: 'category'"
      | some category =>
        match create_ingredient env item_name category w with
        | Except.error e => Except.error e
        | Except.ok (ingredient_id, w) =>
          match ingredient_id with
          | some iid =>
            if iid = "" then
              create_recipe_ingredient_relationships env recipe_id rest w
            else
              let endpoint := "/api/v1/food-chain/recipes/" ++ recipe_id ++
                "/ingredients/" ++ iid
              match make_request env "POST" endpoint none 3 w with
              | Except.error e => Except.error e
              | Except.ok (_r, w) =>
                create_recipe_ingredient_relationships env recipe_id rest w
          | none => create_recipe_ingredient_relationships env recipe_id rest w

/-- `FoodChainImporter.create_recipe` (lines 165-195).  Cache-hit path as in
`create_store_location`; otherwise issue the creation request and, on a
response containing an `id`, cache it, mark the recipe processed, process
the item list, and return the identifier. -/
def create_recipe (env : Env) (recipe_name : String) (items : List ItemRec)
    (w : World) : Except String (Option String × World) :=
  if recipe_name ∈ w.processed_recipes ∧
      truthyO (List.lookup recipe_name w.recipes) = true then
    Except.ok (List.lookup recipe_name w.recipes, w)
  else
    let recipe_data : Dict :=
      [("name", recipe_name), ("description", "Recipe for " ++ recipe_name)]
    match make_request env "POST" "/api/v1/food-chain/recipes"
        (some recipe_data) 3 w with
    | Except.error e => Except.error e
    | Except.ok (result, w) =>
      match result with
      | some r =>
        match List.lookup "id" r with
        | some recipe_id =>
          let w :=
            { w with
                recipes := dictInsert w.recipes recipe_name recipe_id,
                processed_recipes := setAdd w.processed_recipes recipe_name }
          match create_recipe_ingredient_relationships env recipe_id items w with
          | Except.error e => Except.error e
          | Except.ok w => Except.ok (some recipe_id, w)
        | none => Except.ok (none, w)
      | none => Except.ok (none, w)

/-- The recipe loop of `import_data` (lines 229-246): read each recipe's
fields with empty defaults, create it, and count the recipes whose result
`is not None`. -/
def import_loop (env : Env) : List RecipeRec → Nat → World → Except String (Nat × World)
  | [], count, w => Except.ok (count, w)
  | r :: rest, count, w =>
    let recipe_name := r.name.getD ""
    let items := r.items.getD []
    match create_recipe env recipe_name items w with
    | Except.error e => Except.error e
    | Except.ok (result, w) =>
      import_loop env rest (if result.isSome then count + 1 else count) w

/-- `FoodChainImporter.import_data` (lines 214-254).  A file read/parse
failure (the `except` branch of the `try`) returns `False` before any
network activity; otherwise the recipe list is processed in order and the
run succeeds iff every recipe was imported. -/
def import_data (env : Env) (file : Except String InputFile) (w : World) :
    Except String (Bool × World) :=
  match file with
  | Except.error _ => Except.ok (false, w)
  | Except.ok data =>
    let recipes := data.recipes.getD []
    let total := recipes.length
    match import_loop env recipes 0 w with
    | Except.error e => Except.error e
    | Except.ok (success_count, w) => Except.ok (success_count == total, w)

/-! ### Concrete fixtures used by witnesses and counterexamples -/

/-- An oracle answering every request with HTTP 201 and body `{"id": "1"}`. -/
def envG : Env := fun _ => Outcome.http 201 (some [("id", "1")])

/-- The identifier function of `envG`. -/
def fG : Nat → String := fun _ => "1"

/-- An oracle that answers the third and fifth attempts (the two ingredient
creation requests of `rs_shared_item` below) with HTTP 409 and everything
else with HTTP 201 and `{"id": "1"}`. -/
def envConflict : Env := fun n =>
  if n == 2 || n == 4 then Outcome.http 409 none
  else Outcome.http 201 (some [("id", "1")])

/-- An oracle answering every request with HTTP 409. -/
def env409all : Env := fun _ => Outcome.http 409 none

/-- An oracle answering the first two attempts with HTTP 500 and the third
with HTTP 201 and body `{"id": "9"}`. -/
def env500then201 : Env := fun n =>
  if n == 2 then Outcome.http 201 (some [("id", "9")]) else Outcome.http 500 none

/-- An oracle answering every request with HTTP 500. -/
def env500all : Env := fun _ => Outcome.http 500 none

/-- One recipe whose two items both carry the whitespace-only category `" "`. -/
def rs_whitespace : List RecipeRec :=
  [⟨some "R", some [⟨some "A", some " "⟩, ⟨some "B", some " "⟩]⟩]

/-- Two recipes that both reference the item name `"A"` (same category). -/
def rs_shared_item : List RecipeRec :=
  [⟨some "R1", some [⟨some "A", some "P"⟩]⟩,
   ⟨some "R2", some [⟨some "A", some "P"⟩]⟩]

/-- A single well-formed recipe (the end-to-end example of the spec). -/
def rs_demo : List RecipeRec :=
  [⟨some "Soup", some [⟨some "Carrot", some "Produce"⟩]⟩]

/-- A state in which `"Salt"` is marked processed but has no cache entry. -/
def wSalt : World := { initialWorld with processed_store_locations := ["Salt"] }

/-- A state in which `"X"` is marked processed with cached identifier `"5"`. -/
def wHit : World :=
  { initialWorld with
    processed_store_locations := ["X"]
    store_locations := [("X", "5")] }

/-- A state in which `"Y"` is marked processed but has no cache entry. -/
def wMiss : World := { initialWorld with processed_store_locations := ["Y"] }

/-- One recipe with one item whose `category` key is missing. -/
def rs_missing_category : List RecipeRec :=
  [⟨some "R", some [⟨some "Carrot", none⟩]⟩]

/-- One recipe record with both its `name` and `items` keys missing. -/
def rs_missing_fields : List RecipeRec := [⟨none, none⟩]

/-- The state after `env409all` rejects the store-location creation for
category `"Produce"`: one failed request in the trace, nothing cached. -/
def w409 : World :=
  { initialWorld with
    calls := [⟨"POST", "/api/v1/food-chain/store-locations",
      some [("name", "Produce Section"),
        ("description", "Store location for produce items")]⟩] }

/-- The state right after the recipe `"Soup"` has been created and cached
against the oracle `envG`, before its items are processed. -/
def wAfterRecipe : World :=
  { store_locations := [], ingredients := [], recipes := [("Soup", "1")]
    processed_store_locations := [], processed_ingredients := []
    processed_recipes := ["Soup"]
    calls := [⟨"POST", "/api/v1/food-chain/recipes",
      some [("name", "Soup"), ("description", "Recipe for Soup")]⟩] }

/-! ### Basic lemmas about the helper structures -/

theorem mem_setAdd {s : List String} {x a : String} :
    a ∈ setAdd s x ↔ a ∈ s ∨ a = x := by
  unfold setAdd
  split
  · next h =>
    constructor
    · exact Or.inl
    · rintro (ha | rfl)
      · exact ha
      · exact h
  · simp [List.mem_append]

theorem setAdd_of_mem {s : List String} {x : String} (h : x ∈ s) :
    setAdd s x = s := by
  simp [setAdd, h]

theorem setAdd_of_not_mem {s : List String} {x : String} (h : x ∉ s) :
    setAdd s x = s ++ [x] := by
  simp [setAdd, h]

theorem length_setAdd_of_not_mem {s : List String} {x : String} (h : x ∉ s) :
    (setAdd s x).length = s.length + 1 := by
  simp [setAdd, h]

theorem nodup_setAdd {s : List String} {x : String} (h : s.Nodup) :
    (setAdd s x).Nodup := by
  by_cases hx : x ∈ s
  · rw [setAdd_of_mem hx]; exact h
  · rw [setAdd_of_not_mem hx]
    simp [List.nodup_append, h, hx]

theorem lookup_dictInsert_self (d : Dict) (k v : String) :
    List.lookup k (dictInsert d k v) = some v := by
  induction d with
  | nil => simp [dictInsert, List.lookup]
  | cons p rest ih =>
    obtain ⟨k', v'⟩ := p
    by_cases h : k' = k
    · subst h; simp [dictInsert, List.lookup]
    · have hb : (k' == k) = false := beq_eq_false_iff_ne.mpr h
      have hb' : (k == k') = false := beq_eq_false_iff_ne.mpr (Ne.symm h)
      simp [dictInsert, List.lookup, hb, hb', ih]

theorem lookup_dictInsert_ne (d : Dict) {a k : String} (v : String) (h : a ≠ k) :
    List.lookup a (dictInsert d k v) = List.lookup a d := by
  induction d with
  | nil => simp [dictInsert, List.lookup, beq_eq_false_iff_ne.mpr h]
  | cons p rest ih =>
    obtain ⟨k', v'⟩ := p
    by_cases hk : k' = k
    · subst hk
      simp [dictInsert, List.lookup, beq_eq_false_iff_ne.mpr h]
    · simp [dictInsert, List.lookup, beq_eq_false_iff_ne.mpr hk]
      by_cases ha : a = k'
      · subst ha; simp [List.lookup]
      · simp [List.lookup, beq_eq_false_iff_ne.mpr ha, ih]

theorem truthy_lookup_dictInsert {d : Dict} {a k v : String}
    (hv : v ≠ "") (h : a = k ∨ truthyO (List.lookup a d) = true) :
    truthyO (List.lookup a (dictInsert d k v)) = true := by
  by_cases ha : a = k
  · subst ha; simp [lookup_dictInsert_self, truthyO, hv]
  · rcases h with h | h
    · exact absurd h ha
    · rw [lookup_dictInsert_ne d v ha]; exact h

theorem countE_append (calls extra : List Request) (e : String) :
    countE (calls ++ extra) e = countE calls e + countE extra e := by
  simp [countE, List.filter_append]

theorem countE_single (q : Request) (e : String) :
    countE [q] e = if q.endpoint == e then 1 else 0 := by
  unfold countE
  cases h : q.endpoint == e <;> simp [List.filter, h]

theorem countE_replicate (k : Nat) (q : Request) (e : String) :
    countE (List.replicate k q) e = if q.endpoint == e then k else 0 := by
  induction k with
  | zero => simp [countE]
  | succ n ih =>
    have : List.replicate (n + 1) q = List.replicate n q ++ [q] := by
      rw [← List.replicate_succ']
    rw [this, countE_append, ih, countE_single]
    split <;> omega

theorem ne_of_length_ne {s t : String} (h : s.length ≠ t.length) : s ≠ t :=
  fun he => h (he ▸ rfl)

theorem beq_false_of_length_ne {s t : String} (h : s.length ≠ t.length) :
    (s == t) = false :=
  beq_eq_false_iff_ne.mpr (ne_of_length_ne h)

/-! ### Lemmas about the request gateway -/

theorem make_request_post (env : Env) (e : String) (b : Option Dict) (n : Nat)
    (w : World) :
    make_request env "POST" e b n w = Except.ok (request_attempts env "POST" e b n w) := rfl

theorem request_attempts_ok {env : Env} {w : World} {s : Nat} {c : Option Dict}
    (hc : env w.calls.length = Outcome.http s c) (hs : (s == 200 || s == 201) = true)
    {n : Nat} (hn : 0 < n) (m e : String) (b : Option Dict) :
    request_attempts env m e b n w = (some (c.getD []), pushCall w m e b) := by
  cases n with
  | zero => omega
  | succ k => simp [request_attempts, hc, hs]

theorem request_attempts_409 {env : Env} {w : World} {c : Option Dict}
    (hc : env w.calls.length = Outcome.http 409 c)
    {n : Nat} (hn : 0 < n) (m e : String) (b : Option Dict) :
    request_attempts env m e b n w = (none, pushCall w m e b) := by
  cases n with
  | zero => omega
  | succ k => simp [request_attempts, hc]

theorem request_attempts_fail_step {env : Env} {w : World} {s : Nat} {c : Option Dict}
    (hc : env w.calls.length = Outcome.http s c)
    (hs : (s == 200 || s == 201) = false) (hs' : (s == 409) = false)
    {remaining : Nat} (hrem : 0 < remaining) (m e : String) (b : Option Dict) :
    request_attempts env m e b (remaining + 1) w =
      request_attempts env m e b remaining (pushCall w m e b) := by
  simp [request_attempts, hc, hs, hs', hrem]

theorem request_attempts_fail_last {env : Env} {w : World} {s : Nat} {c : Option Dict}
    (hc : env w.calls.length = Outcome.http s c)
    (hs : (s == 200 || s == 201) = false) (hs' : (s == 409) = false)
    (m e : String) (b : Option Dict) :
    request_attempts env m e b 1 w = (none, pushCall w m e b) := by
  simp [request_attempts, hc, hs, hs']

theorem request_attempts_shape (env : Env) (m e : String) (b : Option Dict) :
    ∀ (n : Nat) (w : World),
      ∃ r k, request_attempts env m e b n w =
          (r, { w with calls := w.calls ++ List.replicate k (⟨m, e, b⟩ : Request) }) ∧
        k ≤ n ∧ (0 < n → 0 < k) := by
  intro n
  induction n with
  | zero =>
    intro w
    refine ⟨none, 0, ?_, Nat.le_refl 0, fun h => absurd h (by omega)⟩
    simp [request_attempts]
  | succ rem ih =>
    intro w
    have hone : ∀ r : Option Dict,
        (r, pushCall w m e b) =
          (r, { w with calls := w.calls ++ List.replicate 1 (⟨m, e, b⟩ : Request) }) := by
      intro r
      simp [pushCall, List.replicate]
    cases hc : env w.calls.length with
    | http s c =>
      by_cases hs : (s == 200 || s == 201) = true
      · exact ⟨some (c.getD []), 1, by rw [request_attempts_ok hc hs (by omega) m e b,
          hone], by omega, fun _ => by omega⟩
      · by_cases h9 : (s == 409) = true
        · have hs409 : s = 409 := by simpa using h9
          subst hs409
          exact ⟨none, 1, by rw [request_attempts_409 hc (by omega) m e b, hone],
            by omega, fun _ => by omega⟩
        · by_cases hrem : 0 < rem
          · obtain ⟨r, k, hk, hkle, hkpos⟩ := ih (pushCall w m e b)
            refine ⟨r, k + 1, ?_, by omega, fun _ => by omega⟩
            rw [request_attempts_fail_step hc (by simpa using hs) (by simpa using h9) hrem,
              hk]
            simp [pushCall, List.replicate_succ]
          · have hrem0 : rem = 0 := by omega
            subst hrem0
            exact ⟨none, 1, by rw [request_attempts_fail_last hc (by simpa using hs)
              (by simpa using h9), hone], by omega, fun _ => by omega⟩
    | exn =>
      by_cases hrem : 0 < rem
      · obtain ⟨r, k, hk, hkle, hkpos⟩ := ih (pushCall w m e b)
        refine ⟨r, k + 1, ?_, by omega, fun _ => by omega⟩
        have hstep : request_attempts env m e b (rem + 1) w =
            request_attempts env m e b rem (pushCall w m e b) := by
          simp [request_attempts, hc, hrem]
        rw [hstep, hk]
        simp [pushCall, List.replicate_succ]
      · have hrem0 : rem = 0 := by omega
        subst hrem0
        refine ⟨none, 1, ?_, by omega, fun _ => by omega⟩
        rw [show request_attempts env m e b 1 w = (none, pushCall w m e b) by
          simp [request_attempts, hc], hone]

/-! ### Well-behaved runs: every request succeeds with a nonempty identifier -/

/-- An oracle whose every response is HTTP 201 with body `{"id": f n}` for a
nonempty identifier `f n`. -/
def goodEnvF (f : Nat → String) (env : Env) : Prop :=
  ∀ n, f n ≠ "" ∧ env n = Outcome.http 201 (some [("id", f n)])

/-- A category string unaffected by the whitespace normalization of
`create_store_location`: empty, or containing a non-whitespace character. -/
abbrev goodCat (c : String) : Prop := c = "" ∨ stripEmpty c = false

/-- An input item whose `name` and `category` keys are present and whose
category is unaffected by whitespace normalization. -/
abbrev goodItem (it : ItemRec) : Prop :=
  it.name.isSome = true ∧ it.category.isSome = true ∧ goodCat (it.category.getD "")

/-- Invariant maintained while the run sees only successful responses: every
processed name has a nonempty cached identifier, the store-location and
ingredient creation-request counters equal the sizes of the corresponding
processed sets, and the processed sets are duplicate-free. -/
structure GoodInv (w : World) : Prop where
  slTruthy : ∀ c ∈ w.processed_store_locations,
    truthyO (List.lookup c w.store_locations) = true
  ingTruthy : ∀ n ∈ w.processed_ingredients,
    truthyO (List.lookup n w.ingredients) = true
  recTruthy : ∀ n ∈ w.processed_recipes,
    truthyO (List.lookup n w.recipes) = true
  slCount : slPosts w = w.processed_store_locations.length
  ingCount : ingPosts w = w.processed_ingredients.length
  slNodup : w.processed_store_locations.Nodup
  ingNodup : w.processed_ingredients.Nodup

theorem goodInv_initial : GoodInv initialWorld := by
  constructor <;> simp [initialWorld, slPosts, ingPosts, countE]

theorem goodCat_norm {c : String} (hc : goodCat c) :
    (if c = "" ∨ stripEmpty c = true then "" else c) = c := by
  rcases hc with hc | hc
  · subst hc; simp
  · have hne : ¬(c = "") := by
      intro h
      subst h
      simp [stripEmpty] at hc
    rw [if_neg]
    push_neg
    exact ⟨hne, by simp [hc]⟩

theorem truthyO_eq_true_iff {o : Option String} :
    truthyO o = true ↔ ∃ s, o = some s ∧ s ≠ "" := by
  cases o with
  | none => simp [truthyO]
  | some s => simp [truthyO]

theorem sl_ep_ne_ing_ep :
    (("/api/v1/food-chain/store-locations" : String) ==
      "/api/v1/food-chain/ingredients") = false := rfl

theorem rec_ep_ne_sl_ep :
    (("/api/v1/food-chain/recipes" : String) ==
      "/api/v1/food-chain/store-locations") = false := rfl

theorem rec_ep_ne_ing_ep :
    (("/api/v1/food-chain/recipes" : String) ==
      "/api/v1/food-chain/ingredients") = false := rfl

theorem ing_ep_ne_sl_ep :
    (("/api/v1/food-chain/ingredients" : String) ==
      "/api/v1/food-chain/store-locations") = false := rfl

theorem slPosts_pushCall_sl (w : World) (b : Option Dict) :
    slPosts (pushCall w "POST" "/api/v1/food-chain/store-locations" b) =
      slPosts w + 1 := by
  simp [slPosts, pushCall, countE_append, countE_single]

theorem slPosts_pushCall_ne (w : World) (m e : String) (b : Option Dict)
    (h : (e == "/api/v1/food-chain/store-locations") = false) :
    slPosts (pushCall w m e b) = slPosts w := by
  simp [slPosts, pushCall, countE_append, countE_single, h]

theorem ingPosts_pushCall_ing (w : World) (b : Option Dict) :
    ingPosts (pushCall w "POST" "/api/v1/food-chain/ingredients" b) =
      ingPosts w + 1 := by
  simp [ingPosts, pushCall, countE_append, countE_single]

theorem ingPosts_pushCall_ne (w : World) (m e : String) (b : Option Dict)
    (h : (e == "/api/v1/food-chain/ingredients") = false) :
    ingPosts (pushCall w m e b) = ingPosts w := by
  simp [ingPosts, pushCall, countE_append, countE_single, h]

theorem lookup_id_single (v : String) : List.lookup "id" [("id", v)] = some v := rfl

theorem create_store_location_good {f : Nat → String} {env : Env}
    (hf : goodEnvF f env) {c : String} (hc : goodCat c) {w : World}
    (hw : GoodInv w) :
    ∃ id w', create_store_location env c w = Except.ok (some id, w') ∧ id ≠ "" ∧
      GoodInv w' ∧
      w'.ingredients = w.ingredients ∧
      w'.processed_ingredients = w.processed_ingredients ∧
      w'.recipes = w.recipes ∧
      w'.processed_recipes = w.processed_recipes ∧
      ingPosts w' = ingPosts w := by
  by_cases hhit : c ∈ w.processed_store_locations ∧
      truthyO (List.lookup c w.store_locations) = true
  · obtain ⟨id, hlook, hidne⟩ := truthyO_eq_true_iff.mp hhit.2
    refine ⟨id, w, ?_, hidne, hw, rfl, rfl, rfl, rfl, rfl⟩
    rw [create_store_location, if_pos hhit, hlook]
  · have hcnot : c ∉ w.processed_store_locations := by
      intro hmem
      exact hhit ⟨hmem, hw.slTruthy c hmem⟩
    obtain ⟨hfne, hfenv⟩ := hf w.calls.length
    have hmr : ∀ b, make_request env "POST" "/api/v1/food-chain/store-locations" b 3 w =
        Except.ok (some [("id", f w.calls.length)],
          pushCall w "POST" "/api/v1/food-chain/store-locations" b) := by
      intro b
      rw [make_request_post, request_attempts_ok hfenv (by decide) (by omega)]
      simp
    rw [create_store_location, if_neg hhit]
    simp only [create_store_location_fresh, goodCat_norm hc]
    rw [hmr]
    simp only [lookup_id_single]
    refine ⟨f w.calls.length, _, rfl, hfne, ?_, rfl, rfl, rfl, rfl, ?_⟩
    · constructor
      · intro x hx
        rcases mem_setAdd.mp hx with hx | hx
        · exact truthy_lookup_dictInsert hfne (Or.inr (hw.slTruthy x hx))
        · exact truthy_lookup_dictInsert hfne (Or.inl hx)
      · intro n hn
        exact hw.ingTruthy n hn
      · intro n hn
        exact hw.recTruthy n hn
      · show slPosts _ = _
        have h1 : slPosts (pushCall w "POST" "/api/v1/food-chain/store-locations"
            (some [("name", (List.lookup c location_mapping).getD c),
              ("description", "Store location for " ++ strLower c ++ " items")])) =
            slPosts w + 1 := slPosts_pushCall_sl w _
        have h2 := hw.slCount
        simp only [slPosts] at h1 h2 ⊢
        rw [h1]
        simp only [pushCall]
        rw [length_setAdd_of_not_mem hcnot, h2]
      · show ingPosts _ = _
        have h1 : ingPosts (pushCall w "POST" "/api/v1/food-chain/store-locations"
            (some [("name", (List.lookup c location_mapping).getD c),
              ("description", "Store location for " ++ strLower c ++ " items")])) =
            ingPosts w := ingPosts_pushCall_ne w _ _ _ sl_ep_ne_ing_ep
        have h2 := hw.ingCount
        simp only [ingPosts] at h1 h2 ⊢
        rw [h1]
        simp only [pushCall]
        rw [h2]
      · exact nodup_setAdd hw.slNodup
      · exact hw.ingNodup
    · show ingPosts _ = ingPosts w
      have h1 : ingPosts (pushCall w "POST" "/api/v1/food-chain/store-locations"
          (some [("name", (List.lookup c location_mapping).getD c),
            ("description", "Store location for " ++ strLower c ++ " items")])) =
          ingPosts w := ingPosts_pushCall_ne w _ _ _ sl_ep_ne_ing_ep
      simp only [ingPosts] at h1 ⊢
      rw [h1]

theorem ing_link_ep_ne_sl_ep (iid sid : String) :
    (("/api/v1/food-chain/ingredients/" ++ iid ++ "/store-locations/" ++ sid) ==
      "/api/v1/food-chain/store-locations") = false := by
  apply beq_false_of_length_ne
  have h1 : ("/api/v1/food-chain/ingredients/" : String).length = 31 := rfl
  have h2 : ("/store-locations/" : String).length = 17 := rfl
  have h3 : ("/api/v1/food-chain/store-locations" : String).length = 34 := rfl
  rw [String.length_append, String.length_append, String.length_append, h1, h2, h3]
  omega

theorem ing_link_ep_ne_ing_ep (iid sid : String) :
    (("/api/v1/food-chain/ingredients/" ++ iid ++ "/store-locations/" ++ sid) ==
      "/api/v1/food-chain/ingredients") = false := by
  apply beq_false_of_length_ne
  have h1 : ("/api/v1/food-chain/ingredients/" : String).length = 31 := rfl
  have h2 : ("/store-locations/" : String).length = 17 := rfl
  have h3 : ("/api/v1/food-chain/ingredients" : String).length = 30 := rfl
  rw [String.length_append, String.length_append, String.length_append, h1, h2, h3]
  omega

theorem rec_link_ep_ne_sl_ep (rid iid : String) :
    (("/api/v1/food-chain/recipes/" ++ rid ++ "/ingredients/" ++ iid) ==
      "/api/v1/food-chain/store-locations") = false := by
  apply beq_false_of_length_ne
  have h1 : ("/api/v1/food-chain/recipes/" : String).length = 27 := rfl
  have h2 : ("/ingredients/" : String).length = 13 := rfl
  have h3 : ("/api/v1/food-chain/store-locations" : String).length = 34 := rfl
  rw [String.length_append, String.length_append, String.length_append, h1, h2, h3]
  omega

theorem rec_link_ep_ne_ing_ep (rid iid : String) :
    (("/api/v1/food-chain/recipes/" ++ rid ++ "/ingredients/" ++ iid) ==
      "/api/v1/food-chain/ingredients") = false := by
  apply beq_false_of_length_ne
  have h1 : ("/api/v1/food-chain/recipes/" : String).length = 27 := rfl
  have h2 : ("/ingredients/" : String).length = 13 := rfl
  have h3 : ("/api/v1/food-chain/ingredients" : String).length = 30 := rfl
  rw [String.length_append, String.length_append, String.length_append, h1, h2, h3]
  omega

theorem goodInv_pushCall_other {w : World} (hw : GoodInv w) (m e : String)
    (b : Option Dict)
    (hsl : (e == "/api/v1/food-chain/store-locations") = false)
    (hing : (e == "/api/v1/food-chain/ingredients") = false) :
    GoodInv (pushCall w m e b) := by
  constructor
  · intro c hc
    exact hw.slTruthy c hc
  · intro n hn
    exact hw.ingTruthy n hn
  · intro n hn
    exact hw.recTruthy n hn
  · show slPosts _ = _
    rw [slPosts_pushCall_ne w m e b hsl]
    exact hw.slCount
  · show ingPosts _ = _
    rw [ingPosts_pushCall_ne w m e b hing]
    exact hw.ingCount
  · exact hw.slNodup
  · exact hw.ingNodup

theorem cisr_good {f : Nat → String} {env : Env} (hf : goodEnvF f env)
    (iid sid : String) (w : World) :
    create_ingredient_store_relationship env iid sid w =
      Except.ok (pushCall w "POST"
        ("/api/v1/food-chain/ingredients/" ++ iid ++ "/store-locations/" ++ sid)
        none) := by
  obtain ⟨hne, henv⟩ := hf w.calls.length
  simp only [create_ingredient_store_relationship]
  rw [make_request_post, request_attempts_ok henv (by decide) (by omega)]

theorem create_ingredient_good {f : Nat → String} {env : Env}
    (hf : goodEnvF f env) (n cat : String) (hc : goodCat cat) {w : World}
    (hw : GoodInv w) :
    ∃ id w', create_ingredient env n cat w = Except.ok (some id, w') ∧ id ≠ "" ∧
      GoodInv w' := by
  by_cases hhit : n ∈ w.processed_ingredients ∧
      truthyO (List.lookup n w.ingredients) = true
  · obtain ⟨id, hlook, hidne⟩ := truthyO_eq_true_iff.mp hhit.2
    refine ⟨id, w, ?_, hidne, hw⟩
    rw [create_ingredient, if_pos hhit, hlook]
  · have hnnot : n ∉ w.processed_ingredients := by
      intro hmem
      exact hhit ⟨hmem, hw.ingTruthy n hmem⟩
    obtain ⟨sid, w1, hsl, hsidne, hw1, hing1, hpr1, hrec1, hprec1, hingp1⟩ :=
      create_store_location_good hf hc hw
    have hnnot1 : n ∉ w1.processed_ingredients := by rw [hpr1]; exact hnnot
    obtain ⟨hfne1, hfenv1⟩ := hf w1.calls.length
    have hmr2 : ∀ b, make_request env "POST" "/api/v1/food-chain/ingredients" b 3 w1 =
        Except.ok (some [("id", f w1.calls.length)],
          pushCall w1 "POST" "/api/v1/food-chain/ingredients" b) := by
      intro b
      rw [make_request_post, request_attempts_ok hfenv1 (by decide) (by omega)]
      simp
    rw [create_ingredient, if_neg hhit]
    simp only [hsl]
    rw [if_neg hsidne]
    simp only [hmr2, lookup_id_single]
    rw [cisr_good hf]
    refine ⟨f w1.calls.length, _, rfl, hfne1, ?_⟩
    have hw2 : GoodInv
        { pushCall w1 "POST" "/api/v1/food-chain/ingredients"
            (some [("name", n), ("purchaseFrequency", "Usually")]) with
          ingredients := dictInsert w1.ingredients n (f w1.calls.length),
          processed_ingredients := setAdd w1.processed_ingredients n } := by
      constructor
      · intro x hx
        exact hw1.slTruthy x hx
      · intro x hx
        rcases mem_setAdd.mp hx with hx | hx
        · exact truthy_lookup_dictInsert hfne1 (Or.inr (hw1.ingTruthy x hx))
        · exact truthy_lookup_dictInsert hfne1 (Or.inl hx)
      · intro x hx
        exact hw1.recTruthy x hx
      · show slPosts _ = _
        have h1 := slPosts_pushCall_ne w1 "POST" "/api/v1/food-chain/ingredients"
          (some [("name", n), ("purchaseFrequency", "Usually")]) ing_ep_ne_sl_ep
        have h2 := hw1.slCount
        simp only [slPosts] at h1 h2 ⊢
        rw [h1]
        simp only [pushCall]
        rw [h2]
      · show ingPosts _ = _
        have h1 := ingPosts_pushCall_ing w1
          (some [("name", n), ("purchaseFrequency", "Usually")])
        have h2 := hw1.ingCount
        simp only [ingPosts] at h1 h2 ⊢
        rw [h1]
        rw [length_setAdd_of_not_mem hnnot1, h2]
      · exact hw1.slNodup
      · exact nodup_setAdd hw1.ingNodup
    exact goodInv_pushCall_other hw2 _ _ _
      (ing_link_ep_ne_sl_ep _ _) (ing_link_ep_ne_ing_ep _ _)

theorem crir_good {f : Nat → String} {env : Env} (hf : goodEnvF f env)
    (rid : String) :
    ∀ (items : List ItemRec) (w : World), (∀ it ∈ items, goodItem it) →
      GoodInv w →
      ∃ w', create_recipe_ingredient_relationships env rid items w =
          Except.ok w' ∧ GoodInv w' := by
  intro items
  induction items with
  | nil =>
    intro w _ hw
    exact ⟨w, rfl, hw⟩
  | cons it rest ih =>
    intro w hgood hw
    have hit : goodItem it := hgood it (by simp)
    obtain ⟨n, hn⟩ := Option.isSome_iff_exists.mp hit.1
    obtain ⟨c, hcat⟩ := Option.isSome_iff_exists.mp hit.2.1
    have hgc : goodCat c := by
      have h := hit.2.2
      rw [hcat] at h
      simpa using h
    have hrest : ∀ x ∈ rest, goodItem x := fun x hx => hgood x (by simp [hx])
    obtain ⟨iid, w1, hci, hiidne, hw1⟩ := create_ingredient_good hf n c hgc hw
    obtain ⟨hfne1, hfenv1⟩ := hf w1.calls.length
    have hmr : make_request env "POST"
        ("/api/v1/food-chain/recipes/" ++ rid ++ "/ingredients/" ++ iid)
        none 3 w1 =
        Except.ok (some [("id", f w1.calls.length)],
          pushCall w1 "POST"
            ("/api/v1/food-chain/recipes/" ++ rid ++ "/ingredients/" ++ iid)
            none) := by
      rw [make_request_post, request_attempts_ok hfenv1 (by decide) (by omega)]
      simp
    simp only [create_recipe_ingredient_relationships, hn, hcat, hci]
    rw [if_neg hiidne]
    simp only [hmr]
    exact ih (pushCall w1 "POST"
        ("/api/v1/food-chain/recipes/" ++ rid ++ "/ingredients/" ++ iid) none)
      hrest
      (goodInv_pushCall_other hw1 _ _ _ (rec_link_ep_ne_sl_ep _ _)
        (rec_link_ep_ne_ing_ep _ _))

theorem create_recipe_good {f : Nat → String} {env : Env} (hf : goodEnvF f env)
    (rname : String) {items : List ItemRec} {w : World}
    (hitems : ∀ it ∈ items, goodItem it) (hw : GoodInv w) :
    ∃ rid w', create_recipe env rname items w = Except.ok (some rid, w') ∧
      GoodInv w' := by
  by_cases hhit : rname ∈ w.processed_recipes ∧
      truthyO (List.lookup rname w.recipes) = true
  · obtain ⟨id, hlook, hidne⟩ := truthyO_eq_true_iff.mp hhit.2
    refine ⟨id, w, ?_, hw⟩
    rw [create_recipe, if_pos hhit, hlook]
  · obtain ⟨hfne, hfenv⟩ := hf w.calls.length
    have hmr : ∀ b, make_request env "POST" "/api/v1/food-chain/recipes" b 3 w =
        Except.ok (some [("id", f w.calls.length)],
          pushCall w "POST" "/api/v1/food-chain/recipes" b) := by
      intro b
      rw [make_request_post, request_attempts_ok hfenv (by decide) (by omega)]
      simp
    have hw1 : GoodInv
        { pushCall w "POST" "/api/v1/food-chain/recipes"
            (some [("name", rname), ("description", "Recipe for " ++ rname)]) with
          recipes := dictInsert
            (pushCall w "POST" "/api/v1/food-chain/recipes"
              (some [("name", rname),
                ("description", "Recipe for " ++ rname)])).recipes
            rname (f w.calls.length),
          processed_recipes := setAdd
            (pushCall w "POST" "/api/v1/food-chain/recipes"
              (some [("name", rname),
                ("description", "Recipe for " ++ rname)])).processed_recipes
            rname } := by
      constructor
      · intro x hx
        exact hw.slTruthy x hx
      · intro x hx
        exact hw.ingTruthy x hx
      · intro x hx
        rcases mem_setAdd.mp hx with hx | hx
        · exact truthy_lookup_dictInsert hfne (Or.inr (hw.recTruthy x hx))
        · exact truthy_lookup_dictInsert hfne (Or.inl hx)
      · show slPosts _ = _
        have h1 := slPosts_pushCall_ne w "POST" "/api/v1/food-chain/recipes"
          (some [("name", rname), ("description", "Recipe for " ++ rname)])
          rec_ep_ne_sl_ep
        have h2 := hw.slCount
        simp only [slPosts] at h1 h2 ⊢
        rw [h1]
        simp only [pushCall]
        rw [h2]
      · show ingPosts _ = _
        have h1 := ingPosts_pushCall_ne w "POST" "/api/v1/food-chain/recipes"
          (some [("name", rname), ("description", "Recipe for " ++ rname)])
          rec_ep_ne_ing_ep
        have h2 := hw.ingCount
        simp only [ingPosts] at h1 h2 ⊢
        rw [h1]
        simp only [pushCall]
        rw [h2]
      · exact hw.slNodup
      · exact hw.ingNodup
    obtain ⟨w2, hcr, hw2⟩ := crir_good hf (f w.calls.length) _ _ hitems hw1
    rw [create_recipe, if_neg hhit]
    simp only [hmr, lookup_id_single]
    rw [hcr]
    exact ⟨f w.calls.length, w2, rfl, hw2⟩

theorem import_loop_good {f : Nat → String} {env : Env} (hf : goodEnvF f env) :
    ∀ (rs : List RecipeRec) (count : Nat) (w : World),
      (∀ r ∈ rs, ∀ it ∈ r.items.getD [], goodItem it) → GoodInv w →
      ∃ cnt w', import_loop env rs count w = Except.ok (cnt, w') ∧ GoodInv w' := by
  intro rs
  induction rs with
  | nil =>
    intro count w _ hw
    exact ⟨count, w, rfl, hw⟩
  | cons r rest ih =>
    intro count w hgood hw
    have hr : ∀ it ∈ r.items.getD [], goodItem it := hgood r (by simp)
    obtain ⟨rid, w1, hcr, hw1⟩ := create_recipe_good hf (r.name.getD "") hr hw
    simp only [import_loop, hcr]
    exact ih _ _ (fun r' hr' => hgood r' (by simp [hr'])) hw1

theorem goodEnvF_envG : goodEnvF fG envG :=
  fun _ => ⟨(by decide : ("1" : String) ≠ ""), rfl⟩

/-! ### Claim theorems -/

/-- C1 counterexample.  The raw category string `" "` appears in two items of
the input `rs_whitespace`, every creation request succeeds (`envG`), and it
is the only category in the run, yet the run issues two store-location
creation requests: the processed-set check (line 73) uses the raw string
`" "` while the cache records the normalized key `""` (lines 95-111), so the
second occurrence misses the cache and issues a second creation call.  This
refutes the claim that the creation call is issued at most once per raw
category string and that later occurrences are resolved from the cache. -/
theorem store_location_whitespace_category_created_twice :
    (import_data envG (Except.ok ⟨some rs_whitespace⟩) initialWorld).map
      (fun p => (p.1, slPosts p.2, p.2.processed_store_locations)) =
      Except.ok (true, 2, [""]) := rfl

/-- C1 (amended).  In a run in which every request succeeds with HTTP 201
and a nonempty identifier, and every category of the input is empty or
contains a non-whitespace character, the number of store-location creation
requests equals the number of distinct categories processed (the processed
set is duplicate-free), i.e. the creation call is issued at most once per
category; later occurrences are resolved from the `StoreLocationCache`
without a network call. -/
theorem store_location_created_at_most_once_per_category {f : Nat → String}
    {env : Env} (hf : goodEnvF f env) {rs : List RecipeRec}
    (hrs : ∀ r ∈ rs, ∀ it ∈ r.items.getD [], goodItem it) :
    ∃ b w', import_data env (Except.ok ⟨some rs⟩) initialWorld =
        Except.ok (b, w') ∧
      slPosts w' = w'.processed_store_locations.length ∧
      w'.processed_store_locations.Nodup := by
  obtain ⟨cnt, w', hloop, hw'⟩ :=
    import_loop_good hf rs 0 initialWorld hrs goodInv_initial
  refine ⟨cnt == rs.length, w', ?_, hw'.slCount, hw'.slNodup⟩
  simp only [import_data, Option.getD_some]
  rw [hloop]

/-- Witness for C1: a concrete good run through the amended theorem. -/
theorem store_location_created_at_most_once_per_category_witness :
    ∃ b w', import_data envG (Except.ok ⟨some rs_demo⟩) initialWorld =
        Except.ok (b, w') ∧
      slPosts w' = w'.processed_store_locations.length ∧
      w'.processed_store_locations.Nodup :=
  @store_location_created_at_most_once_per_category fG envG goodEnvF_envG
    rs_demo (by decide)

/-- C2 counterexample.  The item name `"A"` appears in both recipes of
`rs_shared_item`.  The oracle `envConflict` answers both ingredient creation
requests with HTTP 409 (conflict), which `make_request` turns into `None`
without retrying; the failed name is not cached, so the second recipe issues
a second ingredient creation request for `"A"`: two creation calls for one
item name, refuting "at most once per item name" for this run. -/
theorem ingredient_recreated_after_conflict :
    (import_data envConflict (Except.ok ⟨some rs_shared_item⟩) initialWorld).map
      (fun p => (p.1, ingPosts p.2)) = Except.ok (true, 2) := rfl

/-- C2 (amended).  In a run in which every request succeeds with HTTP 201
and a nonempty identifier, and every category of the input is empty or
contains a non-whitespace character, the number of ingredient creation
requests equals the number of distinct item names processed (the processed
set is duplicate-free), i.e. the creation call is issued at most once per
item name; later occurrences return the cached identifier without a network
call. -/
theorem ingredient_created_at_most_once_per_item {f : Nat → String}
    {env : Env} (hf : goodEnvF f env) {rs : List RecipeRec}
    (hrs : ∀ r ∈ rs, ∀ it ∈ r.items.getD [], goodItem it) :
    ∃ b w', import_data env (Except.ok ⟨some rs⟩) initialWorld =
        Except.ok (b, w') ∧
      ingPosts w' = w'.processed_ingredients.length ∧
      w'.processed_ingredients.Nodup := by
  obtain ⟨cnt, w', hloop, hw'⟩ :=
    import_loop_good hf rs 0 initialWorld hrs goodInv_initial
  refine ⟨cnt == rs.length, w', ?_, hw'.ingCount, hw'.ingNodup⟩
  simp only [import_data, Option.getD_some]
  rw [hloop]

/-- Witness for C2: a concrete good run (the shared-item input under a
fully successful oracle) through the amended theorem. -/
theorem ingredient_created_at_most_once_per_item_witness :
    ∃ b w', import_data envG (Except.ok ⟨some rs_shared_item⟩) initialWorld =
        Except.ok (b, w') ∧
      ingPosts w' = w'.processed_ingredients.length ∧
      w'.processed_ingredients.Nodup :=
  @ingredient_created_at_most_once_per_item fG envG goodEnvF_envG
    rs_shared_item (by decide)

theorem pushCall_calls_length (w : World) (m e : String) (b : Option Dict) :
    (pushCall w m e b).calls.length = w.calls.length + 1 := by
  simp [pushCall]

theorem pushCall_three (w : World) (m e : String) (b : Option Dict) :
    pushCall (pushCall (pushCall w m e b) m e b) m e b =
      { w with calls := w.calls ++ List.replicate 3 ⟨m, e, b⟩ } := by
  simp [pushCall, List.replicate]

/-- C4.  Through the request gateway with the default maximum of 3 attempts:
if the oracle answers HTTP 500 twice and then HTTP 201 with a body, the call
returns the parsed body and the trace grows by exactly 3 requests; if it
answers HTTP 500 three times, the call returns `None` and the trace grows by
exactly 3 requests — no 4th attempt is made.  (The 1-second sleep between
attempts has no observable effect on state or trace and is outside the
embedding.) -/
theorem gateway_retry_three_attempts (env env' : Env) (w w' : World)
    (e e' : String) (b b' : Option Dict) (c0 c1 c2 c3 c4 : Option Dict)
    (d : Dict) :
    ((env w.calls.length = Outcome.http 500 c0 →
      env (w.calls.length + 1) = Outcome.http 500 c1 →
      env (w.calls.length + 2) = Outcome.http 201 (some d) →
      make_request env "POST" e b 3 w =
        Except.ok (some d,
          { w with calls := w.calls ++ List.replicate 3 ⟨"POST", e, b⟩ })) ∧
     (env' w'.calls.length = Outcome.http 500 c2 →
      env' (w'.calls.length + 1) = Outcome.http 500 c3 →
      env' (w'.calls.length + 2) = Outcome.http 500 c4 →
      make_request env' "POST" e' b' 3 w' =
        Except.ok (none,
          { w' with calls := w'.calls ++ List.replicate 3 ⟨"POST", e', b'⟩ }))) := by
  constructor
  · intro h0 h1 h2
    have h1' : env (pushCall w "POST" e b).calls.length = Outcome.http 500 c1 := by
      rw [pushCall_calls_length]
      exact h1
    have h2' : env (pushCall (pushCall w "POST" e b) "POST" e b).calls.length =
        Outcome.http 201 (some d) := by
      rw [pushCall_calls_length, pushCall_calls_length]
      exact h2
    have hs1 : make_request env "POST" e b 3 w =
        Except.ok (request_attempts env "POST" e b 3 w) := make_request_post _ _ _ _ _
    have hs2 : request_attempts env "POST" e b 3 w =
        request_attempts env "POST" e b 2 (pushCall w "POST" e b) :=
      @request_attempts_fail_step env w 500 c0 h0 (by decide) (by decide) 2
        (by omega) "POST" e b
    have hs3 : request_attempts env "POST" e b 2 (pushCall w "POST" e b) =
        request_attempts env "POST" e b 1
          (pushCall (pushCall w "POST" e b) "POST" e b) :=
      @request_attempts_fail_step env (pushCall w "POST" e b) 500 c1 h1'
        (by decide) (by decide) 1 (by omega) "POST" e b
    have hs4 : request_attempts env "POST" e b 1
        (pushCall (pushCall w "POST" e b) "POST" e b) =
        (some d, pushCall (pushCall (pushCall w "POST" e b) "POST" e b) "POST" e b) := by
      rw [request_attempts_ok h2' (by decide) (by omega)]
      simp
    rw [hs1, hs2, hs3, hs4, pushCall_three]
  · intro h0 h1 h2
    have h1' : env' (pushCall w' "POST" e' b').calls.length = Outcome.http 500 c3 := by
      rw [pushCall_calls_length]
      exact h1
    have h2' : env' (pushCall (pushCall w' "POST" e' b') "POST" e' b').calls.length =
        Outcome.http 500 c4 := by
      rw [pushCall_calls_length, pushCall_calls_length]
      exact h2
    have hs1 : make_request env' "POST" e' b' 3 w' =
        Except.ok (request_attempts env' "POST" e' b' 3 w') := make_request_post _ _ _ _ _
    have hs2 : request_attempts env' "POST" e' b' 3 w' =
        request_attempts env' "POST" e' b' 2 (pushCall w' "POST" e' b') :=
      @request_attempts_fail_step env' w' 500 c2 h0 (by decide) (by decide) 2
        (by omega) "POST" e' b'
    have hs3 : request_attempts env' "POST" e' b' 2 (pushCall w' "POST" e' b') =
        request_attempts env' "POST" e' b' 1
          (pushCall (pushCall w' "POST" e' b') "POST" e' b') :=
      @request_attempts_fail_step env' (pushCall w' "POST" e' b') 500 c3 h1'
        (by decide) (by decide) 1 (by omega) "POST" e' b'
    have hs4 : request_attempts env' "POST" e' b' 1
        (pushCall (pushCall w' "POST" e' b') "POST" e' b') =
        (none, pushCall (pushCall (pushCall w' "POST" e' b') "POST" e' b') "POST" e' b') :=
      request_attempts_fail_last h2' (by decide) (by decide) "POST" e' b'
    rw [hs1, hs2, hs3, hs4, pushCall_three]

/-- Witness for C4 at the concrete oracles `env500then201` and `env500all`. -/
theorem gateway_retry_three_attempts_witness :
    make_request env500then201 "POST" "/api/v1/food-chain/recipes" none 3
        initialWorld =
      Except.ok (some [("id", "9")],
        { initialWorld with
          calls := initialWorld.calls ++
            List.replicate 3 ⟨"POST", "/api/v1/food-chain/recipes", none⟩ }) ∧
    make_request env500all "POST" "/api/v1/food-chain/recipes" none 3
        initialWorld =
      Except.ok (none,
        { initialWorld with
          calls := initialWorld.calls ++
            List.replicate 3 ⟨"POST", "/api/v1/food-chain/recipes", none⟩ }) :=
  ⟨(gateway_retry_three_attempts env500then201 env500all initialWorld
      initialWorld "/api/v1/food-chain/recipes" "/api/v1/food-chain/recipes"
      none none none none none none none [("id", "9")]).1 rfl rfl rfl,
   (gateway_retry_three_attempts env500then201 env500all initialWorld
      initialWorld "/api/v1/food-chain/recipes" "/api/v1/food-chain/recipes"
      none none none none none none none [("id", "9")]).2 rfl rfl rfl⟩

/-- C7.  If the oracle answers the first attempt with HTTP 409, the gateway
call returns `None` immediately and the trace grows by exactly one request:
zero retries (and hence no backoff sleep, which is outside the embedding). -/
theorem gateway_conflict_no_retry (env : Env) (w : World) (e : String)
    (b c : Option Dict) (h : env w.calls.length = Outcome.http 409 c) :
    make_request env "POST" e b 3 w =
      Except.ok (none, { w with calls := w.calls ++ [⟨"POST", e, b⟩] }) := by
  rw [make_request_post, request_attempts_409 h (by omega)]
  rfl

/-- Witness for C7 at the concrete oracle `env409all`. -/
theorem gateway_conflict_no_retry_witness :
    make_request env409all "POST" "/api/v1/food-chain/ingredients" none 3
        initialWorld =
      Except.ok (none,
        { initialWorld with
          calls := initialWorld.calls ++
            [⟨"POST", "/api/v1/food-chain/ingredients", none⟩] }) :=
  gateway_conflict_no_retry env409all initialWorld
    "/api/v1/food-chain/ingredients" none none rfl

theorem slPosts_append_replicate (w : World) (k : Nat) (b : Option Dict) :
    slPosts { w with
      calls := w.calls ++
        List.replicate k ⟨"POST", "/api/v1/food-chain/store-locations", b⟩ } =
    slPosts w + k := by
  simp [slPosts, countE_append, countE_replicate]

theorem create_store_location_fresh_shape (env : Env) (c : String) (w : World) :
    ∃ r w', create_store_location_fresh env c w = Except.ok (r, w') ∧
      slPosts w < slPosts w' := by
  simp only [create_store_location_fresh]
  rw [make_request_post]
  set cn := if c = "" ∨ stripEmpty c = true then "" else c with hcn
  obtain ⟨r, k, hra, hkle, hkpos⟩ :=
    request_attempts_shape env "POST" "/api/v1/food-chain/store-locations"
      (some [("name", (List.lookup cn location_mapping).getD cn),
        ("description", "Store location for " ++ strLower cn ++ " items")]) 3 w
  have hk : 0 < k := hkpos (by omega)
  cases r with
  | none =>
    simp only [hra]
    refine ⟨none, _, rfl, ?_⟩
    simp only [slPosts, countE_append, countE_replicate, beq_self_eq_true,
      if_true]
    omega
  | some r =>
    cases hl : List.lookup "id" r with
    | none =>
      simp only [hra, hl]
      refine ⟨none, _, rfl, ?_⟩
      simp only [slPosts, countE_append, countE_replicate, beq_self_eq_true,
        if_true]
      omega
    | some id =>
      simp only [hra, hl]
      refine ⟨some id, _, rfl, ?_⟩
      simp only [slPosts, countE_append, countE_replicate, beq_self_eq_true,
        if_true]
      omega

/-- C3 counterexample.  In the state `wSalt` the category `"Salt"` is marked
processed but has no cache entry.  The claim says `create_store_location`
then returns null after a warning without issuing a creation request; the
code instead falls through (the source comment reads "Continue to create the
store location") and issues the creation request, returning the fresh
identifier `"1"` with one store-location request in the trace. -/
theorem store_location_missing_cache_entry_creates :
    (create_store_location envG "Salt" wSalt).map
      (fun p => (p.1, slPosts p.2)) = Except.ok (some "1", 1) := rfl

/-- C3 (amended).  When `create_store_location` is called with a category in
the processed set: if the cached identifier is present and nonempty it is
returned with no state change and no network call; if the cache entry is
missing or empty, the function logs a warning and continues into the
creation path, issuing at least one store-location creation request — it
does not return null without attempting creation. -/
theorem store_location_processed_behavior (env : Env) (c : String) (w : World)
    (hmem : c ∈ w.processed_store_locations) :
    (truthyO (List.lookup c w.store_locations) = true →
      create_store_location env c w =
        Except.ok (List.lookup c w.store_locations, w)) ∧
    (truthyO (List.lookup c w.store_locations) = false →
      create_store_location env c w = create_store_location_fresh env c w ∧
      ∃ r w', create_store_location_fresh env c w = Except.ok (r, w') ∧
        slPosts w < slPosts w') := by
  constructor
  · intro ht
    rw [create_store_location, if_pos ⟨hmem, ht⟩]
  · intro hfalse
    have hneg : ¬(c ∈ w.processed_store_locations ∧
        truthyO (List.lookup c w.store_locations) = true) := by
      intro hand
      rw [hand.2] at hfalse
      exact Bool.noConfusion hfalse
    refine ⟨by rw [create_store_location, if_neg hneg], ?_⟩
    exact create_store_location_fresh_shape env c w

/-- Witness for C3: both processed-set branches at concrete states. -/
theorem store_location_processed_behavior_witness :
    create_store_location envG "X" wHit =
      Except.ok (List.lookup "X" wHit.store_locations, wHit) ∧
    (create_store_location envG "Y" wMiss =
        create_store_location_fresh envG "Y" wMiss ∧
      ∃ r w', create_store_location_fresh envG "Y" wMiss = Except.ok (r, w') ∧
        slPosts wMiss < slPosts w') :=
  ⟨(store_location_processed_behavior envG "X" wHit (by decide)).1 (by decide),
   (store_location_processed_behavior envG "Y" wMiss (by decide)).2 (by decide)⟩

/-- C9.  If reading or parsing the input file fails (the `Except.error`
case of the parsed input), `import_data` returns `False` immediately and the
state — including the trace of issued requests — is returned unchanged:
zero network calls are made in that run. -/
theorem import_data_parse_failure_returns_false (env : Env) (e : String)
    (w : World) :
    import_data env (Except.error e) w = Except.ok (false, w) := rfl

/-! ### Totality and frame lemmas for arbitrary oracles -/

theorem request_attempts_snd (env : Env) (m e : String) (b : Option Dict)
    (n : Nat) (w : World) :
    ∃ k, (request_attempts env m e b n w).2 =
      { w with calls := w.calls ++ List.replicate k (⟨m, e, b⟩ : Request) } := by
  obtain ⟨r, k, h, _, _⟩ := request_attempts_shape env m e b n w
  exact ⟨k, by rw [h]⟩

theorem ra_snd_store_locations (env : Env) (m e : String) (b : Option Dict)
    (n : Nat) (w : World) :
    (request_attempts env m e b n w).2.store_locations = w.store_locations := by
  obtain ⟨k, h⟩ := request_attempts_snd env m e b n w
  rw [h]

theorem ra_snd_ingredients (env : Env) (m e : String) (b : Option Dict)
    (n : Nat) (w : World) :
    (request_attempts env m e b n w).2.ingredients = w.ingredients := by
  obtain ⟨k, h⟩ := request_attempts_snd env m e b n w
  rw [h]

theorem ra_snd_recipes (env : Env) (m e : String) (b : Option Dict)
    (n : Nat) (w : World) :
    (request_attempts env m e b n w).2.recipes = w.recipes := by
  obtain ⟨k, h⟩ := request_attempts_snd env m e b n w
  rw [h]

theorem ra_snd_processed_store_locations (env : Env) (m e : String)
    (b : Option Dict) (n : Nat) (w : World) :
    (request_attempts env m e b n w).2.processed_store_locations =
      w.processed_store_locations := by
  obtain ⟨k, h⟩ := request_attempts_snd env m e b n w
  rw [h]

theorem ra_snd_processed_ingredients (env : Env) (m e : String)
    (b : Option Dict) (n : Nat) (w : World) :
    (request_attempts env m e b n w).2.processed_ingredients =
      w.processed_ingredients := by
  obtain ⟨k, h⟩ := request_attempts_snd env m e b n w
  rw [h]

theorem ra_snd_processed_recipes (env : Env) (m e : String) (b : Option Dict)
    (n : Nat) (w : World) :
    (request_attempts env m e b n w).2.processed_recipes =
      w.processed_recipes := by
  obtain ⟨k, h⟩ := request_attempts_snd env m e b n w
  rw [h]

theorem ra_snd_calls_count_ing_sl (env : Env) (b : Option Dict) (n : Nat)
    (w : World) :
    countE (request_attempts env "POST" "/api/v1/food-chain/store-locations"
        b n w).2.calls "/api/v1/food-chain/ingredients" =
      countE w.calls "/api/v1/food-chain/ingredients" := by
  obtain ⟨k, h⟩ := request_attempts_snd env "POST"
    "/api/v1/food-chain/store-locations" b n w
  rw [h]
  simp [countE_append, countE_replicate, sl_ep_ne_ing_ep]

theorem create_store_location_total (env : Env) (c : String) (w : World) :
    ∃ r w', create_store_location env c w = Except.ok (r, w') := by
  rw [create_store_location]
  split
  · exact ⟨_, _, rfl⟩
  · simp only [create_store_location_fresh, make_request_post]
    split
    · split
      · exact ⟨_, _, rfl⟩
      · exact ⟨_, _, rfl⟩
    · exact ⟨_, _, rfl⟩

theorem create_ingredient_total (env : Env) (n c : String) (w : World) :
    ∃ r w', create_ingredient env n c w = Except.ok (r, w') := by
  rw [create_ingredient]
  split
  · exact ⟨_, _, rfl⟩
  · obtain ⟨r0, w1, hsl⟩ := create_store_location_total env c w
    simp only [hsl]
    split
    · exact ⟨_, _, rfl⟩
    · split
      · exact ⟨_, _, rfl⟩
      · simp only [make_request_post]
        split
        · split
          · simp only [create_ingredient_store_relationship, make_request_post]
            exact ⟨_, _, rfl⟩
          · exact ⟨_, _, rfl⟩
        · exact ⟨_, _, rfl⟩

theorem crir_total (env : Env) (rid : String) :
    ∀ (items : List ItemRec) (w : World),
      (∀ it ∈ items, it.name.isSome = true ∧ it.category.isSome = true) →
      ∃ w', create_recipe_ingredient_relationships env rid items w =
        Except.ok w' := by
  intro items
  induction items with
  | nil =>
    intro w _
    exact ⟨w, rfl⟩
  | cons it rest ih =>
    intro w h
    obtain ⟨n, hn⟩ := Option.isSome_iff_exists.mp (h it (by simp)).1
    obtain ⟨c, hc⟩ := Option.isSome_iff_exists.mp (h it (by simp)).2
    obtain ⟨r0, w1, hci⟩ := create_ingredient_total env n c w
    have hrest : ∀ x ∈ rest, x.name.isSome = true ∧ x.category.isSome = true :=
      fun x hx => h x (by simp [hx])
    simp only [create_recipe_ingredient_relationships, hn, hc, hci]
    split
    · split
      · exact ih w1 hrest
      · simp only [make_request_post]
        exact ih _ hrest
    · exact ih w1 hrest

theorem create_recipe_total (env : Env) (rname : String) (items : List ItemRec)
    (w : World)
    (hitems : ∀ it ∈ items, it.name.isSome = true ∧ it.category.isSome = true) :
    ∃ r w', create_recipe env rname items w = Except.ok (r, w') := by
  rw [create_recipe]
  split
  · exact ⟨_, _, rfl⟩
  · simp only [make_request_post]
    split
    · split
      · obtain ⟨w2, hcr⟩ := crir_total env _ items _ hitems
        rw [hcr]
        exact ⟨_, _, rfl⟩
      · exact ⟨_, _, rfl⟩
    · exact ⟨_, _, rfl⟩

theorem import_loop_total (env : Env) :
    ∀ (rs : List RecipeRec) (count : Nat) (w : World),
      (∀ r ∈ rs, ∀ it ∈ r.items.getD [],
        it.name.isSome = true ∧ it.category.isSome = true) →
      ∃ cnt w', import_loop env rs count w = Except.ok (cnt, w') := by
  intro rs
  induction rs with
  | nil =>
    intro count w _
    exact ⟨count, w, rfl⟩
  | cons r rest ih =>
    intro count w h
    obtain ⟨r0, w1, hcr⟩ :=
      create_recipe_total env (r.name.getD "") (r.items.getD []) w
        (h r (by simp))
    simp only [import_loop, hcr]
    exact ih _ _ (fun r' hr' => h r' (by simp [hr']))

/-- C5 counterexample.  The input `rs_missing_category` has a recipe whose
item lacks the `category` key.  The claim says such a record is tolerated
with an empty default; instead `item['category']` (line 201) raises an
uncaught `KeyError` after the recipe itself was created, aborting the run
(modelled as `Except.error`). -/
theorem item_missing_category_raises :
    import_data envG (Except.ok ⟨some rs_missing_category⟩) initialWorld =
      Except.error "KeyError: 'category'" := rfl

/-- C5 (amended).  A recipe record missing its `name` or `items` key is
tolerated by substituting the empty defaults `''` and `[]`
(`recipe.get(...)`, lines 231-232): for every oracle, a run over such a
record completes normally with a boolean result.  An item record missing
its `name` or `category` key is NOT tolerated: `item['name']` /
`item['category']` raise an uncaught `KeyError` that aborts the run. -/
theorem recipe_missing_fields_tolerated (env : Env) :
    ∃ b w', import_data env (Except.ok ⟨some rs_missing_fields⟩) initialWorld =
      Except.ok (b, w') := by
  obtain ⟨cnt, w', hloop⟩ :=
    import_loop_total env rs_missing_fields 0 initialWorld (by decide)
  refine ⟨cnt == rs_missing_fields.length, w', ?_⟩
  simp only [import_data, Option.getD_some]
  rw [hloop]

/-- C6.  If the recipe creation request succeeds — the oracle answers it
with a body containing an `id` — then `create_recipe` caches the recipe and
hands the full item list, in its original order and without deduplication,
to `create_recipe_ingredient_relationships`; whatever the oracle answers for
the ingredient and link requests of those items (any failures are only
logged), the processing of the list runs to completion and `create_recipe`
still returns the recipe identifier. -/
theorem recipe_success_independent_of_item_failures (env : Env)
    (rname : String) (items : List ItemRec) (w w1 : World) (d : Dict)
    (rid : String)
    (hmem : rname ∉ w.processed_recipes)
    (hitems : ∀ it ∈ items, it.name.isSome = true ∧ it.category.isSome = true)
    (hresp : request_attempts env "POST" "/api/v1/food-chain/recipes"
      (some [("name", rname), ("description", "Recipe for " ++ rname)]) 3 w =
      (some d, w1))
    (hid : List.lookup "id" d = some rid) :
    ∃ w2, create_recipe_ingredient_relationships env rid items
        { w1 with
          recipes := dictInsert w1.recipes rname rid
          processed_recipes := setAdd w1.processed_recipes rname } =
        Except.ok w2 ∧
      create_recipe env rname items w = Except.ok (some rid, w2) := by
  obtain ⟨w2, hcr⟩ := crir_total env rid items
    { w1 with
      recipes := dictInsert w1.recipes rname rid
      processed_recipes := setAdd w1.processed_recipes rname } hitems
  refine ⟨w2, hcr, ?_⟩
  rw [create_recipe, if_neg (fun hand => hmem hand.1)]
  simp only [make_request_post, hresp, hid, hcr]

/-- Witness for C6: the `"Soup"` recipe against the all-successful oracle. -/
theorem recipe_success_independent_of_item_failures_witness :
    ∃ w2, create_recipe_ingredient_relationships envG "1"
        [⟨some "Carrot", some "Produce"⟩] wAfterRecipe = Except.ok w2 ∧
      create_recipe envG "Soup" [⟨some "Carrot", some "Produce"⟩]
        initialWorld = Except.ok (some "1", w2) :=
  recipe_success_independent_of_item_failures envG "Soup"
    [⟨some "Carrot", some "Produce"⟩] initialWorld
    (pushCall initialWorld "POST" "/api/v1/food-chain/recipes"
      (some [("name", "Soup"), ("description", "Recipe for " ++ "Soup")]))
    [("id", "1")] "1" (by decide) (by decide) rfl rfl

theorem create_store_location_frame (env : Env) (c : String) {w : World}
    {r : Option String} {w' : World}
    (h : create_store_location env c w = Except.ok (r, w')) :
    w'.ingredients = w.ingredients ∧
    w'.processed_ingredients = w.processed_ingredients ∧
    ingPosts w' = ingPosts w := by
  rw [create_store_location] at h
  split at h
  · simp only [Except.ok.injEq, Prod.mk.injEq] at h
    obtain ⟨h1, h2⟩ := h
    subst h2
    exact ⟨rfl, rfl, rfl⟩
  · simp only [create_store_location_fresh, make_request_post] at h
    split at h
    · split at h
      · simp only [Except.ok.injEq, Prod.mk.injEq] at h
        obtain ⟨h1, h2⟩ := h
        subst h2
        refine ⟨?_, ?_, ?_⟩
        · simp only [ra_snd_ingredients]
        · simp only [ra_snd_processed_ingredients]
        · simp only [ingPosts, ra_snd_calls_count_ing_sl]
      · simp only [Except.ok.injEq, Prod.mk.injEq] at h
        obtain ⟨h1, h2⟩ := h
        subst h2
        refine ⟨?_, ?_, ?_⟩
        · simp only [ra_snd_ingredients]
        · simp only [ra_snd_processed_ingredients]
        · simp only [ingPosts, ra_snd_calls_count_ing_sl]
    · simp only [Except.ok.injEq, Prod.mk.injEq] at h
      obtain ⟨h1, h2⟩ := h
      subst h2
      refine ⟨?_, ?_, ?_⟩
      · simp only [ra_snd_ingredients]
      · simp only [ra_snd_processed_ingredients]
      · simp only [ingPosts, ra_snd_calls_count_ing_sl]

/-- C8.  If the item name is not yet processed and resolving the store
location returns null, `create_ingredient` returns null with exactly the
state left by the store-location attempt: the ingredient cache and the
processed-ingredients set are unchanged and no ingredient creation request
has been issued (the ingredient-creation request count is unchanged). -/
theorem ingredient_store_location_failure_short_circuits (env : Env)
    (n c : String) (w w1 : World)
    (hn : n ∉ w.processed_ingredients)
    (hsl : create_store_location env c w = Except.ok (none, w1)) :
    create_ingredient env n c w = Except.ok (none, w1) ∧
    w1.ingredients = w.ingredients ∧
    w1.processed_ingredients = w.processed_ingredients ∧
    ingPosts w1 = ingPosts w := by
  obtain ⟨hi, hpi, hip⟩ := create_store_location_frame env c hsl
  refine ⟨?_, hi, hpi, hip⟩
  rw [create_ingredient, if_neg (fun hand => hn hand.1)]
  simp only [hsl]

/-- Witness for C8: category `"Produce"` under the always-409 oracle. -/
theorem ingredient_store_location_failure_short_circuits_witness :
    create_ingredient env409all "Carrot" "Produce" initialWorld =
      Except.ok (none, w409) ∧
    w409.ingredients = initialWorld.ingredients ∧
    w409.processed_ingredients = initialWorld.processed_ingredients ∧
    ingPosts w409 = ingPosts initialWorld :=
  ingredient_store_location_failure_short_circuits env409all "Carrot"
    "Produce" initialWorld w409 (by decide) rfl

/-! ### The processed-set / cache consistency invariant (C10) -/

/-- Every name in a processed set has an entry in the corresponding
identifier cache (the processed set is a subset of the cache's key set). -/
abbrev CacheInv (w : World) : Prop :=
  (∀ c ∈ w.processed_store_locations,
    (List.lookup c w.store_locations).isSome = true) ∧
  (∀ n ∈ w.processed_ingredients,
    (List.lookup n w.ingredients).isSome = true) ∧
  (∀ n ∈ w.processed_recipes,
    (List.lookup n w.recipes).isSome = true)

theorem lookup_isSome_dictInsert {d : Dict} {a k : String} (v : String)
    (h : a = k ∨ (List.lookup a d).isSome = true) :
    (List.lookup a (dictInsert d k v)).isSome = true := by
  by_cases ha : a = k
  · subst ha
    simp [lookup_dictInsert_self]
  · rcases h with h | h
    · exact absurd h ha
    · rw [lookup_dictInsert_ne d v ha]
      exact h

theorem cacheInv_ra_snd (env : Env) (m e : String) (b : Option Dict) (n : Nat)
    {w : World} (hw : CacheInv w) :
    CacheInv (request_attempts env m e b n w).2 := by
  obtain ⟨k, hk⟩ := request_attempts_snd env m e b n w
  rw [hk]
  exact hw

theorem cacheInv_insert_sl {w : World} (hw : CacheInv w) (k v : String) :
    CacheInv { w with
      store_locations := dictInsert w.store_locations k v
      processed_store_locations := setAdd w.processed_store_locations k } := by
  obtain ⟨h1, h2, h3⟩ := hw
  refine ⟨?_, h2, h3⟩
  intro x hx
  rcases mem_setAdd.mp hx with hx | hx
  · exact lookup_isSome_dictInsert v (Or.inr (h1 x hx))
  · exact lookup_isSome_dictInsert v (Or.inl hx)

theorem cacheInv_insert_ing {w : World} (hw : CacheInv w) (k v : String) :
    CacheInv { w with
      ingredients := dictInsert w.ingredients k v
      processed_ingredients := setAdd w.processed_ingredients k } := by
  obtain ⟨h1, h2, h3⟩ := hw
  refine ⟨h1, ?_, h3⟩
  intro x hx
  rcases mem_setAdd.mp hx with hx | hx
  · exact lookup_isSome_dictInsert v (Or.inr (h2 x hx))
  · exact lookup_isSome_dictInsert v (Or.inl hx)

theorem cacheInv_insert_rec {w : World} (hw : CacheInv w) (k v : String) :
    CacheInv { w with
      recipes := dictInsert w.recipes k v
      processed_recipes := setAdd w.processed_recipes k } := by
  obtain ⟨h1, h2, h3⟩ := hw
  refine ⟨h1, h2, ?_⟩
  intro x hx
  rcases mem_setAdd.mp hx with hx | hx
  · exact lookup_isSome_dictInsert v (Or.inr (h3 x hx))
  · exact lookup_isSome_dictInsert v (Or.inl hx)

theorem cacheInv_create_store_location (env : Env) (c : String) {w : World}
    {r : Option String} {w' : World} (hw : CacheInv w)
    (h : create_store_location env c w = Except.ok (r, w')) : CacheInv w' := by
  rw [create_store_location] at h
  split at h
  · simp only [Except.ok.injEq, Prod.mk.injEq] at h
    obtain ⟨-, h2⟩ := h
    subst h2
    exact hw
  · simp only [create_store_location_fresh, make_request_post] at h
    split at h
    · split at h
      · simp only [Except.ok.injEq, Prod.mk.injEq] at h
        obtain ⟨-, h2⟩ := h
        subst h2
        exact cacheInv_insert_sl (cacheInv_ra_snd env _ _ _ _ hw) _ _
      · simp only [Except.ok.injEq, Prod.mk.injEq] at h
        obtain ⟨-, h2⟩ := h
        subst h2
        exact cacheInv_ra_snd env _ _ _ _ hw
    · simp only [Except.ok.injEq, Prod.mk.injEq] at h
      obtain ⟨-, h2⟩ := h
      subst h2
      exact cacheInv_ra_snd env _ _ _ _ hw

theorem cacheInv_create_ingredient (env : Env) (n c : String) {w : World}
    {r : Option String} {w' : World} (hw : CacheInv w)
    (h : create_ingredient env n c w = Except.ok (r, w')) : CacheInv w' := by
  rw [create_ingredient] at h
  split at h
  · simp only [Except.ok.injEq, Prod.mk.injEq] at h
    obtain ⟨-, h2⟩ := h
    subst h2
    exact hw
  · obtain ⟨r0, w1, hsl⟩ := create_store_location_total env c w
    have hw1 : CacheInv w1 := cacheInv_create_store_location env c hw hsl
    simp only [hsl] at h
    split at h
    · simp only [Except.ok.injEq, Prod.mk.injEq] at h
      obtain ⟨-, h2⟩ := h
      subst h2
      exact hw1
    · split at h
      · simp only [Except.ok.injEq, Prod.mk.injEq] at h
        obtain ⟨-, h2⟩ := h
        subst h2
        exact hw1
      · simp only [make_request_post] at h
        split at h
        · split at h
          · simp only [create_ingredient_store_relationship,
              make_request_post] at h
            simp only [Except.ok.injEq, Prod.mk.injEq] at h
            obtain ⟨-, h2⟩ := h
            subst h2
            exact cacheInv_ra_snd env _ _ _ _
              (cacheInv_insert_ing (cacheInv_ra_snd env _ _ _ _ hw1) _ _)
          · simp only [Except.ok.injEq, Prod.mk.injEq] at h
            obtain ⟨-, h2⟩ := h
            subst h2
            exact cacheInv_ra_snd env _ _ _ _ hw1
        · simp only [Except.ok.injEq, Prod.mk.injEq] at h
          obtain ⟨-, h2⟩ := h
          subst h2
          exact cacheInv_ra_snd env _ _ _ _ hw1

theorem cacheInv_crir (env : Env) (rid : String) :
    ∀ (items : List ItemRec) (w w' : World), CacheInv w →
      create_recipe_ingredient_relationships env rid items w = Except.ok w' →
      CacheInv w' := by
  intro items
  induction items with
  | nil =>
    intro w w' hw h
    simp only [create_recipe_ingredient_relationships, Except.ok.injEq] at h
    subst h
    exact hw
  | cons it rest ih =>
    intro w w' hw h
    cases hnm : it.name with
    | none =>
      simp only [create_recipe_ingredient_relationships, hnm] at h
      exact absurd h (by simp)
    | some nm =>
      cases hcat : it.category with
      | none =>
        simp only [create_recipe_ingredient_relationships, hnm, hcat] at h
        exact absurd h (by simp)
      | some cat =>
        simp only [create_recipe_ingredient_relationships, hnm, hcat] at h
        obtain ⟨r0, w1, hci⟩ := create_ingredient_total env nm cat w
        have hw1 : CacheInv w1 := cacheInv_create_ingredient env nm cat hw hci
        simp only [hci] at h
        split at h
        · split at h
          · exact ih _ _ hw1 h
          · simp only [make_request_post] at h
            exact ih _ _ (cacheInv_ra_snd env _ _ _ _ hw1) h
        · exact ih _ _ hw1 h

theorem cacheInv_create_recipe (env : Env) (rname : String)
    (items : List ItemRec) {w : World} {r : Option String} {w' : World}
    (hw : CacheInv w)
    (h : create_recipe env rname items w = Except.ok (r, w')) : CacheInv w' := by
  rw [create_recipe] at h
  split at h
  · simp only [Except.ok.injEq, Prod.mk.injEq] at h
    obtain ⟨-, h2⟩ := h
    subst h2
    exact hw
  · simp only [make_request_post] at h
    split at h
    · split at h
      · rename_i rid hrid
        split at h
        · exact absurd h (by simp)
        · rename_i w2 hcr
          simp only [Except.ok.injEq, Prod.mk.injEq] at h
          obtain ⟨-, h2⟩ := h
          subst h2
          exact cacheInv_crir env rid _ _ _
            (cacheInv_insert_rec (cacheInv_ra_snd env _ _ _ _ hw) _ _) hcr
      · simp only [Except.ok.injEq, Prod.mk.injEq] at h
        obtain ⟨-, h2⟩ := h
        subst h2
        exact cacheInv_ra_snd env _ _ _ _ hw
    · simp only [Except.ok.injEq, Prod.mk.injEq] at h
      obtain ⟨-, h2⟩ := h
      subst h2
      exact cacheInv_ra_snd env _ _ _ _ hw

theorem cacheInv_import_loop (env : Env) :
    ∀ (rs : List RecipeRec) (count : Nat) (w : World) (cnt : Nat) (w' : World),
      CacheInv w → import_loop env rs count w = Except.ok (cnt, w') →
      CacheInv w' := by
  intro rs
  induction rs with
  | nil =>
    intro count w cnt w' hw h
    simp only [import_loop, Except.ok.injEq, Prod.mk.injEq] at h
    obtain ⟨-, h2⟩ := h
    subst h2
    exact hw
  | cons rr rest ih =>
    intro count w cnt w' hw h
    simp only [import_loop] at h
    split at h
    · exact absurd h (by simp)
    · rename_i p hcr
      exact ih _ _ _ _ (cacheInv_create_recipe env _ _ hw hcr) h

/-- C10.  Throughout a run, every processed set is a subset of the key set
of the corresponding identifier cache: a name enters a processed set only
together with its identifier entering the cache in the same success branch,
and no entry is ever removed.  The invariant `CacheInv` is preserved by
`create_store_location`, `create_ingredient`, `create_recipe` and a whole
`import_data` run, for every oracle. -/
theorem processed_subset_of_cache :
    (∀ (env : Env) (c : String) (w : World) (r : Option String) (w' : World),
      CacheInv w → create_store_location env c w = Except.ok (r, w') →
      CacheInv w') ∧
    (∀ (env : Env) (n c : String) (w : World) (r : Option String) (w' : World),
      CacheInv w → create_ingredient env n c w = Except.ok (r, w') →
      CacheInv w') ∧
    (∀ (env : Env) (rname : String) (items : List ItemRec) (w : World)
      (r : Option String) (w' : World),
      CacheInv w → create_recipe env rname items w = Except.ok (r, w') →
      CacheInv w') ∧
    (∀ (env : Env) (file : Except String InputFile) (w : World) (b : Bool)
      (w' : World),
      CacheInv w → import_data env file w = Except.ok (b, w') →
      CacheInv w') := by
  refine ⟨fun env c w r w' hw h => cacheInv_create_store_location env c hw h,
    fun env n c w r w' hw h => cacheInv_create_ingredient env n c hw h,
    fun env rname items w r w' hw h => cacheInv_create_recipe env rname items hw h,
    fun env file w b w' hw h => ?_⟩
  match file with
  | Except.error e =>
    simp only [import_data, Except.ok.injEq, Prod.mk.injEq] at h
    obtain ⟨-, h2⟩ := h
    subst h2
    exact hw
  | Except.ok data =>
    simp only [import_data] at h
    split at h
    · exact absurd h (by simp)
    · rename_i p hloop
      simp only [Except.ok.injEq, Prod.mk.injEq] at h
      obtain ⟨-, h2⟩ := h
      subst h2
      exact cacheInv_import_loop env _ _ _ _ _ hw hloop

/-- Witness for C10: the store-location branch applied at a concrete good
run from the empty state. -/
theorem processed_subset_of_cache_witness :
    ∃ w', create_store_location envG "Produce" initialWorld =
        Except.ok (some "1", w') ∧ CacheInv w' := by
  refine ⟨_, rfl, processed_subset_of_cache.1 envG "Produce" initialWorld
    (some "1") _ (by decide) rfl⟩
